import Mathlib

/-!
Verification development for the storage-recovery and safe-delete pipeline:
the path-security validator, the trash subsystem, the TTL cache, the
duplicate-detection engine and the scan orchestrator, shallowly embedded
from the Rust source (src-tauri/src/commands, trash, cache, scanner).
-/

/-! ### String utilities

Models of the Rust primitives used by the validator: byte-wise
substring containment (str::contains) and string-prefix test
(str::starts_with), together with the component-wise Path::starts_with.
-/

/-- Character-list test that the first list is an initial segment of the
second (the first argument is the needle, the second the haystack). -/
def startsWithL [BEq α] : List α → List α → Bool
  | [], _ => true
  | _ :: _, [] => false
  | a :: as, b :: bs => a == b && startsWithL as bs

/-- Character-list substring containment: the needle occurs contiguously
somewhere in the haystack. -/
def hasSubstrL [BEq α] (needle : List α) : List α → Bool
  | [] => startsWithL needle []
  | c :: cs => startsWithL needle (c :: cs) || hasSubstrL needle cs

/-- Model of Rust str::contains over strings. -/
def strContains (hay needle : String) : Bool :=
  hasSubstrL needle.data hay.data

/-- Model of Rust str::starts_with over strings. -/
def strStartsWith (hay needle : String) : Bool :=
  startsWithL needle.data hay.data

/-- Path components of an absolute Unix path (empty segments dropped),
used to model the component-wise Path::starts_with. -/
def pathComponents (p : String) : List String :=
  (p.splitOn "/").filter (fun s => s ≠ "")

/-- Model of Rust Path::starts_with: component-wise, not byte-wise. -/
def pathStartsWith (p base : String) : Bool :=
  startsWithL (pathComponents base) (pathComponents p)

/-! ### Path Security Validator (commands/mod.rs)

Embeddings of SecurityContext, SecurityError and the seven-layer
validate_path_comprehensive pipeline. Filesystem-dependent layers
(canonicalization, existence, permissions, home directory) are
parameterized by an explicit filesystem model `FsModel`.
-/

/-- Embedding of the SecurityContext enum. -/
inductive SecurityContext where
  | Deletion
  | CacheCleanup
  | PackageManagement
  | LogCleanup
deriving DecidableEq

/-- Embedding of the SecurityError enum. -/
inductive SecurityError where
  | PathTraversal (path : String)
  | NonAbsolutePath (path : String)
  | SystemCriticalPath (path : String)
  | PermissionDenied (path : String)
  | OutsideBoundaries (path : String)
  | PathDoesNotExist (path : String)
  | SecurityViolation (message : String)
deriving DecidableEq

/-- The advanced traversal patterns checked by validate_path_traversal. -/
def traversalPatterns : List String := ["../", "..\\", "/../", "\\..\\"]

/-- Embedding of validate_path_traversal: rejects paths containing a
literal dot-dot, one of the separator patterns, or the two lowercase
percent-encoded forms checked by the source. -/
def validate_path_traversal (path : String) : Except SecurityError Unit :=
  if strContains path ".." then .error (.PathTraversal path)
  else if traversalPatterns.any (fun pat => strContains path pat) then
    .error (.PathTraversal path)
  else if strContains path "%2e%2e%2f" || strContains path "%2e%2e/" then
    .error (.PathTraversal path)
  else .ok ()

/-- The always-forbidden system path list of validate_system_critical_paths. -/
def alwaysForbidden : List String :=
  ["/bin", "/boot", "/dev", "/etc", "/lib", "/lib64", "/proc", "/run", "/sbin", "/sys",
   "/usr/bin", "/usr/sbin", "/usr/lib", "/usr/local/bin",
   "/var/lib", "/var/run", "/var/lock", "/var/spool",
   "/root", "/home/root",
   "/etc/passwd", "/etc/shadow", "/etc/sudoers"]

/-- The additional forbidden list for the general-deletion context. -/
def deletionForbidden : List String := ["/usr", "/opt", "/var"]

/-- The forbidden list for the cache-cleanup context. -/
def cacheForbidden : List String := ["/etc", "/usr/bin"]

/-- Embedding of validate_system_critical_paths: the always-forbidden
list applies to every context (first match wins, as in the source loop),
then context-specific restrictions narrow further. String-prefix
semantics, as the source operates on the canonical path string. -/
def validate_system_critical_paths (canonicalPath : String)
    (context : SecurityContext) : Except SecurityError Unit :=
  match alwaysForbidden.find? (fun p => strStartsWith canonicalPath p) with
  | some p => .error (.SystemCriticalPath p)
  | none =>
    match context with
    | .Deletion =>
      match deletionForbidden.find? (fun p => strStartsWith canonicalPath p) with
      | some p => .error (.SystemCriticalPath p)
      | none => .ok ()
    | .CacheCleanup =>
      match cacheForbidden.find? (fun p => strStartsWith canonicalPath p) with
      | some p => .error (.SystemCriticalPath p)
      | none => .ok ()
    | .PackageManagement =>
      if strStartsWith canonicalPath "/etc" && !strStartsWith canonicalPath "/etc/apt" then
        .error (.SystemCriticalPath "/etc")
      else .ok ()
    | .LogCleanup => .ok ()

/-- Abstract filesystem model parameterizing the filesystem-dependent
validation layers: canonicalization (some canonical string when the path
resolves), existence, the readonly permission bit, file owner uid, the
invoking uid, and the home directory. -/
structure FsModel where
  canonical : String → Option String
  pathExists : String → Bool
  readOnly : String → Bool
  ownerUid : String → Nat
  uid : Nat
  home : Option String

/-- The allow-list of shared system locations in
validate_filesystem_boundaries. -/
def allowedSystemPaths : List String := ["/var/cache", "/tmp"]

/-- Embedding of validate_filesystem_boundaries: the canonical path must
lie under the home directory or one of the allowed system paths
(component-wise Path::starts_with, as in the source). -/
def validate_filesystem_boundaries (fs : FsModel) (canonicalPath : String)
    (_context : SecurityContext) : Except SecurityError Unit :=
  match fs.home with
  | none => .error (.SecurityViolation "Cannot determine home directory")
  | some home =>
    if pathStartsWith canonicalPath home then .ok ()
    else if allowedSystemPaths.any (fun a => pathStartsWith canonicalPath a) then .ok ()
    else .error (.OutsideBoundaries canonicalPath)

/-- Embedding of validate_permissions: readonly paths are denied, and a
non-root invoking user must own the file. -/
def validate_permissions (fs : FsModel) (canonicalPath : String) :
    Except SecurityError Unit :=
  if fs.readOnly canonicalPath then .error (.PermissionDenied canonicalPath)
  else if fs.uid != 0 && fs.uid != fs.ownerUid canonicalPath then
    .error (.PermissionDenied canonicalPath)
  else .ok ()

/-- Model of Rust Path::is_absolute for Unix: the path has a root. -/
def isAbsolutePath (path : String) : Bool :=
  strStartsWith path "/"

/-- Embedding of validate_path_comprehensive: the seven layers in source
order, short-circuiting on the first failure. -/
def validate_path_comprehensive (fs : FsModel) (path : String)
    (context : SecurityContext) : Except SecurityError Unit :=
  match validate_path_traversal path with
  | .error e => .error e
  | .ok _ =>
    if !isAbsolutePath path then .error (.NonAbsolutePath path)
    else
      match fs.canonical path with
      | none => .error (.SecurityViolation ("Cannot canonicalize path " ++ path))
      | some canonicalPath =>
        match validate_system_critical_paths canonicalPath context with
        | .error e => .error e
        | .ok _ =>
          match validate_filesystem_boundaries fs canonicalPath context with
          | .error e => .error e
          | .ok _ =>
            match validate_permissions fs canonicalPath with
            | .error e => .error e
            | .ok _ =>
              if !fs.pathExists canonicalPath then .error (.PathDoesNotExist path)
              else .ok ()

/-- Recognizer for the PathDoesNotExist error case. -/
def isPathMissingErr : Except SecurityError Unit → Bool
  | .error (.PathDoesNotExist _) => true
  | _ => false

/-- Modelled from the spec: the percent-encoded variants of a dot-dot
segment, obtained by percent-encoding each dot in either letter case.
The claim quantifies over paths containing such a variant. -/
def specEncodedVariants : List String :=
  ["%2e%2e", "%2e%2E", "%2E%2e", "%2E%2E"]

/-! ### Claims about the validator -/

/-- C1 counterexample: the path contains the uppercase percent-encoded
variant of a dot-dot segment, yet the traversal layer accepts it, so the
validator does not reject it with a traversal error. -/
theorem c1_encoded_variant_counterexample :
    specEncodedVariants.any (fun v => strContains "/home/user/%2E%2E/secret" v) = true
    ∧ validate_path_traversal "/home/user/%2E%2E/secret" = .ok () := by
  constructor
  · decide
  · rfl

/-- C1 amended: every path containing a literal dot-dot (which subsumes
all separator variants) or one of the two lowercase percent-encoded
forms checked by the source is rejected by validate_path_comprehensive
with a traversal error, for every context and filesystem, before any
later layer can influence the result. -/
theorem c1_traversal_rejected (fs : FsModel) (path : String)
    (context : SecurityContext)
    (h : strContains path ".." = true ∨ strContains path "%2e%2e%2f" = true
         ∨ strContains path "%2e%2e/" = true) :
    validate_path_comprehensive fs path context = .error (.PathTraversal path) := by
  have ht : validate_path_traversal path = .error (.PathTraversal path) := by
    unfold validate_path_traversal
    split_ifs with h1 h2 h3
    · rfl
    · rfl
    · rfl
    · exfalso
      rcases h with h | h | h
      · exact h1 h
      · exact h3 (by simp [h])
      · exact h3 (by simp [h])
  unfold validate_path_comprehensive
  rw [ht]

/-- C1 amended witness at a concrete traversal path. -/
theorem c1_traversal_rejected_witness :
    validate_path_comprehensive
      { canonical := fun _ => none, pathExists := fun _ => false,
        readOnly := fun _ => false, ownerUid := fun _ => 1000, uid := 1000,
        home := some "/home/user" }
      "/home/user/../etc" .Deletion
    = .error (.PathTraversal "/home/user/../etc") :=
  c1_traversal_rejected _ _ _ (Or.inl (by decide))

/-- Modelled from the spec: the always-forbidden example list named by
the claim. -/
def specAlwaysForbidden : List String :=
  ["/etc", "/bin", "/boot", "/proc", "/sys", "/usr/bin", "/root"]

/-- C2: in every context, a canonical path starting with one of the
always-forbidden system prefixes named by the claim is rejected with a
system-critical-path error; in the general-deletion context, canonical
paths starting with /usr, /opt or /var are additionally rejected. -/
theorem c2_system_critical_rejection :
    (∀ (c : String) (context : SecurityContext),
      specAlwaysForbidden.any (fun p => strStartsWith c p) = true →
      ∃ q, validate_system_critical_paths c context = .error (.SystemCriticalPath q))
    ∧ (∀ c : String,
      deletionForbidden.any (fun p => strStartsWith c p) = true →
      ∃ q, validate_system_critical_paths c .Deletion
           = .error (.SystemCriticalPath q)) := by
  constructor
  · intro c context h
    obtain ⟨x, hx, hpx⟩ := List.any_eq_true.mp h
    have hsub : ∀ y ∈ specAlwaysForbidden, y ∈ alwaysForbidden := by decide
    have hfind : (alwaysForbidden.find? (fun p => strStartsWith c p)).isSome :=
      List.find?_isSome.mpr ⟨x, hsub x hx, hpx⟩
    obtain ⟨p, hp⟩ := Option.isSome_iff_exists.mp hfind
    exact ⟨p, by simp [validate_system_critical_paths, hp]⟩
  · intro c h
    obtain ⟨x, hx, hpx⟩ := List.any_eq_true.mp h
    cases hfa : alwaysForbidden.find? (fun p => strStartsWith c p) with
    | some p => exact ⟨p, by simp [validate_system_critical_paths, hfa]⟩
    | none =>
      have hfind : (deletionForbidden.find? (fun p => strStartsWith c p)).isSome :=
        List.find?_isSome.mpr ⟨x, hx, hpx⟩
      obtain ⟨p, hp⟩ := Option.isSome_iff_exists.mp hfind
      exact ⟨p, by simp [validate_system_critical_paths, hfa, hp]⟩

/-- C2 witness: a path under /etc in the cache-cleanup context and a
path under /opt in the deletion context are both rejected. -/
theorem c2_system_critical_rejection_witness :
    (∃ q, validate_system_critical_paths "/etc/hosts" .CacheCleanup
          = .error (.SystemCriticalPath q))
    ∧ (∃ q, validate_system_critical_paths "/opt/app" .Deletion
          = .error (.SystemCriticalPath q)) :=
  ⟨c2_system_critical_rejection.1 "/etc/hosts" .CacheCleanup (by decide),
   c2_system_critical_rejection.2 "/opt/app" (by decide)⟩

/-- The traversal layer only ever produces a PathTraversal error. -/
theorem traversal_error_shape (path : String) (e : SecurityError)
    (h : validate_path_traversal path = .error e) : e = .PathTraversal path := by
  unfold validate_path_traversal at h
  split_ifs at h <;> simp_all

/-- The system-critical layer only ever produces a SystemCriticalPath error. -/
theorem critical_error_shape (c : String) (context : SecurityContext)
    (e : SecurityError)
    (h : validate_system_critical_paths c context = .error e) :
    ∃ q, e = .SystemCriticalPath q := by
  unfold validate_system_critical_paths at h
  cases hfa : alwaysForbidden.find? (fun p => strStartsWith c p) with
  | some p =>
    rw [hfa] at h
    simp only [Except.error.injEq] at h
    exact ⟨p, h.symm⟩
  | none =>
    rw [hfa] at h
    cases context with
    | Deletion =>
      cases hfd : deletionForbidden.find? (fun p => strStartsWith c p) with
      | some p =>
        rw [hfd] at h
        simp only [Except.error.injEq] at h
        exact ⟨p, h.symm⟩
      | none => rw [hfd] at h; simp at h
    | CacheCleanup =>
      cases hfd : cacheForbidden.find? (fun p => strStartsWith c p) with
      | some p =>
        rw [hfd] at h
        simp only [Except.error.injEq] at h
        exact ⟨p, h.symm⟩
      | none => rw [hfd] at h; simp at h
    | PackageManagement =>
      simp only at h
      split_ifs at h
      simp only [Except.error.injEq] at h
      exact ⟨"/etc", h.symm⟩
    | LogCleanup => simp at h

/-- The boundary layer only ever produces a SecurityViolation or
OutsideBoundaries error. -/
theorem boundaries_error_shape (fs : FsModel) (c : String)
    (context : SecurityContext) (e : SecurityError)
    (h : validate_filesystem_boundaries fs c context = .error e) :
    e = .SecurityViolation "Cannot determine home directory"
    ∨ e = .OutsideBoundaries c := by
  unfold validate_filesystem_boundaries at h
  split at h
  · simp only [Except.error.injEq] at h
    exact Or.inl h.symm
  · split_ifs at h
    all_goals simp_all

/-- The permission layer only ever produces a PermissionDenied error. -/
theorem permissions_error_shape (fs : FsModel) (c : String)
    (e : SecurityError)
    (h : validate_permissions fs c = .error e) : e = .PermissionDenied c := by
  unfold validate_permissions at h
  split_ifs at h <;> simp_all

/-- C10: on a well-formed filesystem model, where canonicalization only
succeeds on paths that exist, validate_path_comprehensive can never
return a PathDoesNotExist error: the layer-3 canonicalization failure
always fires first, making the final layer-7 branch unreachable. -/
theorem c10_path_missing_unreachable (fs : FsModel)
    (hwf : ∀ p c, fs.canonical p = some c → fs.pathExists c = true)
    (path : String) (context : SecurityContext) :
    isPathMissingErr (validate_path_comprehensive fs path context) = false := by
  unfold validate_path_comprehensive
  split
  · next e heq =>
    have he := traversal_error_shape path e heq
    subst he
    rfl
  · next u heq =>
    split
    · rfl
    · split
      · rfl
      · next canon heq2 =>
        split
        · next e heq3 =>
          obtain ⟨q, hq⟩ := critical_error_shape canon context e heq3
          subst hq
          rfl
        · split
          · next e heq4 =>
            rcases boundaries_error_shape fs canon context e heq4 with he | he <;>
              subst he <;> rfl
          · split
            · next e heq5 =>
              have he := permissions_error_shape fs canon e heq5
              subst he
              rfl
            · split
              · next hcond =>
                exact absurd (hwf path canon heq2) (by simpa using hcond)
              · rfl

/-- C10 witness: a model filesystem on which no path canonicalizes never
yields a PathDoesNotExist error. -/
theorem c10_path_missing_unreachable_witness :
    isPathMissingErr
      (validate_path_comprehensive
        { canonical := fun _ => none, pathExists := fun _ => false,
          readOnly := fun _ => false, ownerUid := fun _ => 1000, uid := 1000,
          home := some "/home/user" }
        "/home/user/file" .Deletion) = false :=
  c10_path_missing_unreachable _ (fun _ _ h => by simp at h) "/home/user/file" .Deletion

/-! ### Trash Subsystem (trash/mod.rs)

The filesystem is modelled as a map from absolute paths to byte
contents, and the journal (metadata.json) as an in-memory list of trash
items; journal persistence always succeeds in the model. Timestamps are
integers; expires_at is stored directly as the expiry instant. -/

/-- Filesystem model for the trash subsystem: a path is either absent or
carries byte content. Directories are flattened to single objects with
content; create_dir_all is a no-op here. -/
def FileSys : Type := String → Option (List Nat)

/-- Model of fs::rename: fails when the source is absent, otherwise the
content moves to the destination (overwriting it, as Rust rename does
for files). -/
def fsRename (src dst : String) (fs : FileSys) : Option FileSys :=
  match fs src with
  | none => none
  | some content =>
    some (fun q => if q = dst then some content else if q = src then none else fs q)

/-- Remove every path in the list from the filesystem (the expiry
sweep's best-effort removals). -/
def fsRemoveAll (fs : FileSys) : List String → FileSys
  | [] => fs
  | p :: ps => fsRemoveAll (fun q => if q = p then none else fs q) ps

/-- Embedding of the TrashItem record (journal entry). The rfc3339
timestamp strings are modelled as integer instants. -/
structure TrashItemM where
  id : String
  original_path : String
  trash_path : String
  deleted_at : Int
  expires_at : Int
  size : Nat
deriving DecidableEq

/-- Whole trash-subsystem state: the filesystem plus the journal. -/
structure TrashState where
  fs : FileSys
  journal : List TrashItemM

/-- The trash root (get_trash_dir under the home directory) joined with
an item identifier. -/
def trashPathOf (id : String) : String :=
  "/home/user/.local/share/linux-cleaner/trash/" ++ id

/-- First journal entry with the given id (models
items.iter().position(|i| i.id == id) followed by indexing). -/
def findItem : List TrashItemM → String → Option TrashItemM
  | [], _ => none
  | x :: xs, id => if x.id = id then some x else findItem xs id

/-- Remove the first journal entry with the given id (models
items.remove(item_idx)). -/
def removeFirstById : List TrashItemM → String → List TrashItemM
  | [], _ => []
  | x :: xs, id => if x.id = id then xs else x :: removeFirstById xs id

/-- Embedding of move_to_trash: requires the source to exist, renames it
to the trash path derived from the fresh identifier, appends the journal
entry with expiry now + retention, and persists. The fresh uuid and the
clock are explicit parameters. -/
def move_to_trash (st : TrashState) (path : String) (retention_days : Int)
    (id : String) (now : Int) : Except String (TrashItemM × TrashState) :=
  match st.fs path with
  | none => .error ("Path does not exist: " ++ path)
  | some content =>
    let tp := trashPathOf id
    let item : TrashItemM :=
      { id := id, original_path := path, trash_path := tp,
        deleted_at := now, expires_at := now + retention_days,
        size := content.length }
    match fsRename path tp st.fs with
    | none => .error "Failed to move to trash"
    | some fs2 => .ok (item, { fs := fs2, journal := st.journal ++ [item] })

/-- Embedding of restore_from_trash: looks up the journal entry by id;
drops a stale entry whose trashed file vanished; refuses to restore onto
an occupied original path; otherwise renames back and removes the
journal entry. Returns the outcome together with the resulting state
(errors return the state as the source leaves it). -/
def restore_from_trash (st : TrashState) (id : String) :
    Except String Unit × TrashState :=
  match findItem st.journal id with
  | none => (.error ("Item not found in trash: " ++ id), st)
  | some item =>
    if (st.fs item.trash_path).isNone then
      (.error "Item no longer exists in trash",
       { st with journal := removeFirstById st.journal id })
    else if (st.fs item.original_path).isSome then
      (.error ("Cannot restore: path already exists: " ++ item.original_path), st)
    else
      match fsRename item.trash_path item.original_path st.fs with
      | none => (.error "Failed to restore", st)
      | some fs2 => (.ok (), { fs := fs2, journal := removeFirstById st.journal id })

/-- An entry is expired when its expiry instant is at or before now
(expires <= now in the source). -/
def isExpired (now : Int) (i : TrashItemM) : Bool :=
  i.expires_at ≤ now

/-- Embedding of cleanup_expired: removes every expired entry (deleting
its backing file best-effort), keeps the rest, persists, and returns the
count removed. -/
def cleanup_expired (st : TrashState) (now : Int) : Nat × TrashState :=
  let expired := st.journal.filter (isExpired now)
  let remaining := st.journal.filter (fun i => !isExpired now i)
  (expired.length,
   { fs := fsRemoveAll st.fs (expired.map (fun i => i.trash_path)),
     journal := remaining })

/-- Appending a matching item to a journal that does not contain the id
makes the lookup find exactly that item. -/
theorem findItem_append_right (j : List TrashItemM) (it : TrashItemM) (id : String)
    (h : findItem j id = none) (hid : it.id = id) :
    findItem (j ++ [it]) id = some it := by
  induction j with
  | nil => simp [findItem, hid]
  | cons x xs ih =>
    simp only [findItem, List.cons_append] at h ⊢
    by_cases hx : x.id = id
    · rw [if_pos hx] at h
      exact absurd h (by simp)
    · rw [if_neg hx] at h ⊢
      exact ih h

/-- Removing the appended matching item from such a journal restores the
original journal. -/
theorem removeFirstById_append (j : List TrashItemM) (it : TrashItemM) (id : String)
    (h : findItem j id = none) (hid : it.id = id) :
    removeFirstById (j ++ [it]) id = j := by
  induction j with
  | nil => simp [removeFirstById, hid]
  | cons x xs ih =>
    simp only [findItem, removeFirstById, List.cons_append] at h ⊢
    by_cases hx : x.id = id
    · rw [if_pos hx] at h
      exact absurd h (by simp)
    · rw [if_neg hx] at h ⊢
      simp [ih h]

/-- C3: moving an existing path to trash and immediately restoring the
returned item's id succeeds, puts the identical content back at the
original path, empties the trash slot, and returns the journal to its
original value. The identifier is fresh (uuid) and the original path is
not itself the trash slot. -/
theorem c3_trash_restore_round_trip
    (st : TrashState) (path : String) (content : List Nat)
    (retention_days now : Int) (id : String)
    (hin : st.fs path = some content)
    (hfresh : findItem st.journal id = none)
    (hne : path ≠ trashPathOf id) :
    ∃ item st2 st3,
      move_to_trash st path retention_days id now = .ok (item, st2) ∧
      restore_from_trash st2 item.id = (.ok (), st3) ∧
      st3.fs path = some content ∧
      st3.fs (trashPathOf id) = none ∧
      st3.journal = st.journal := by
  set item : TrashItemM :=
    { id := id, original_path := path, trash_path := trashPathOf id,
      deleted_at := now, expires_at := now + retention_days,
      size := content.length } with hitem
  set fs2 : FileSys :=
    (fun q => if q = trashPathOf id then some content
              else if q = path then none else st.fs q) with hfs2
  set st2 : TrashState := { fs := fs2, journal := st.journal ++ [item] } with hst2
  have hmove : move_to_trash st path retention_days id now = .ok (item, st2) := by
    unfold move_to_trash fsRename
    rw [hin]
  have hfind2 : findItem st2.journal id = some item :=
    findItem_append_right st.journal item id hfresh rfl
  have hrem : removeFirstById st2.journal id = st.journal :=
    removeFirstById_append st.journal item id hfresh rfl
  have htp : fs2 (trashPathOf id) = some content := by simp [hfs2]
  have hop : fs2 path = none := by simp [hfs2, hne]
  set fs3 : FileSys :=
    (fun q => if q = path then some content
              else if q = trashPathOf id then none else fs2 q) with hfs3
  have hren : fsRename (trashPathOf id) path fs2 = some fs3 := by
    unfold fsRename
    rw [htp]
  have hrest : restore_from_trash st2 id =
      (.ok (), { fs := fs3, journal := st.journal }) := by
    unfold restore_from_trash
    rw [hfind2]
    simp only [hitem]
    rw [show (fs2 (trashPathOf id)).isNone = false by rw [htp]; rfl]
    rw [show (fs2 path).isSome = false by rw [hop]; rfl]
    simp only [Bool.false_eq_true, if_false]
    rw [hren, hrem]
  refine ⟨item, st2, { fs := fs3, journal := st.journal }, hmove, ?_, ?_, ?_, rfl⟩
  · simpa [hitem] using hrest
  · simp [hfs3]
  · simp [hfs3, Ne.symm hne]

/-- C3 witness: a concrete one-file filesystem round-trips through the
trash. -/
theorem c3_trash_restore_round_trip_witness :
    ∃ item st2 st3,
      move_to_trash
        { fs := fun q => if q = "/home/user/doc.txt" then some [104, 105] else none,
          journal := [] }
        "/home/user/doc.txt" 3 "id0" 0 = .ok (item, st2) ∧
      restore_from_trash st2 item.id = (.ok (), st3) ∧
      st3.fs "/home/user/doc.txt" = some [104, 105] ∧
      st3.fs (trashPathOf "id0") = none ∧
      st3.journal = [] :=
  c3_trash_restore_round_trip _ "/home/user/doc.txt" [104, 105] 3 0 "id0"
    (by simp) (by rfl) (by decide)

/-- C4: when the original path is already occupied (and the trashed file
is still present), restore_from_trash reports the specific
already-exists error and returns the state unchanged: nothing is
overwritten and both the trashed file and the journal entry remain. -/
theorem c4_restore_refuses_overwrite (st : TrashState) (id : String)
    (item : TrashItemM)
    (hfind : findItem st.journal id = some item)
    (htrash : (st.fs item.trash_path).isSome = true)
    (horig : (st.fs item.original_path).isSome = true) :
    restore_from_trash st id =
      (.error ("Cannot restore: path already exists: " ++ item.original_path), st) := by
  obtain ⟨tc, htc⟩ := Option.isSome_iff_exists.mp htrash
  obtain ⟨oc, hoc⟩ := Option.isSome_iff_exists.mp horig
  unfold restore_from_trash
  rw [hfind]
  simp [htc, hoc]

/-- C4 witness: a concrete occupied original path makes restore fail and
leave the state unchanged. -/
theorem c4_restore_refuses_overwrite_witness :
    restore_from_trash
      { fs := fun q => if q = "/home/user/doc.txt" then some [1]
                       else if q = trashPathOf "id1" then some [2] else none,
        journal := [{ id := "id1", original_path := "/home/user/doc.txt",
                      trash_path := trashPathOf "id1", deleted_at := 0,
                      expires_at := 3, size := 1 }] }
      "id1" =
    (.error ("Cannot restore: path already exists: " ++ "/home/user/doc.txt"),
     { fs := fun q => if q = "/home/user/doc.txt" then some [1]
                      else if q = trashPathOf "id1" then some [2] else none,
       journal := [{ id := "id1", original_path := "/home/user/doc.txt",
                     trash_path := trashPathOf "id1", deleted_at := 0,
                     expires_at := 3, size := 1 }] }) :=
  c4_restore_refuses_overwrite _ "id1" _ (by rfl) (by decide) (by decide)

/-- Filtering by a predicate after keeping only its complement yields
nothing. -/
theorem filter_pos_of_filter_neg (p : α → Bool) (l : List α) :
    (l.filter (fun a => !p a)).filter p = [] := by
  induction l with
  | nil => rfl
  | cons x xs ih => cases hx : p x <;> simp [List.filter_cons, hx, ih]

/-- Filtering by the complement twice is the same as once. -/
theorem filter_neg_idem (p : α → Bool) (l : List α) :
    (l.filter (fun a => !p a)).filter (fun a => !p a)
    = l.filter (fun a => !p a) := by
  induction l with
  | nil => rfl
  | cons x xs ih => cases hx : p x <;> simp [List.filter_cons, hx, ih]

/-- C9: cleanup_expired is idempotent; a second sweep at the same
instant removes zero items and leaves the state (journal included)
unchanged. -/
theorem c9_cleanup_expired_idempotent (st : TrashState) (now : Int) :
    cleanup_expired (cleanup_expired st now).2 now
    = (0, (cleanup_expired st now).2) := by
  unfold cleanup_expired
  simp only
  rw [filter_pos_of_filter_neg, filter_neg_idem]
  simp [fsRemoveAll]

/-! ### TTL Cache (cache/mod.rs)

The directory-size cache of CacheManager: a map from paths to a value
with an absolute expiry instant, plus the configured TTL. Instants are
naturals; get takes the current instant explicitly. get is a pure
function of the state: by construction it cannot evict anything. -/

/-- Embedding of the CacheManager state relevant to directory sizes:
the backing map and the configured dir_size_ttl. -/
structure CacheManagerM where
  dirSizes : String → Option (Nat × Nat)
  dirSizeTtl : Nat

/-- Embedding of CacheManager::get_dir_size: returns the value only when
the expiry instant is strictly in the future, otherwise a miss; the
state is not modified (no implicit eviction). -/
def CacheManagerM.get_dir_size (m : CacheManagerM) (path : String)
    (now : Nat) : Option Nat :=
  match m.dirSizes path with
  | some entry => if now < entry.2 then some entry.1 else none
  | none => none

/-- Embedding of CacheManager::set_dir_size: always overwrites, with
expiry now + dir_size_ttl. -/
def CacheManagerM.set_dir_size (m : CacheManagerM) (path : String)
    (size : Nat) (now : Nat) : CacheManagerM :=
  { m with dirSizes := fun q =>
      if q = path then some (size, now + m.dirSizeTtl) else m.dirSizes q }

/-- C8: after set at instant t0, a get strictly before t0 + ttl returns
the value; a get at or after t0 + ttl is a miss; and the entry itself
stays in the map with its expiry (get is pure, so the expired entry is
not implicitly evicted). -/
theorem c8_ttl_cache_get_set (m : CacheManagerM) (path : String)
    (size t0 now : Nat) :
    (now < t0 + m.dirSizeTtl →
      (m.set_dir_size path size t0).get_dir_size path now = some size)
    ∧ (t0 + m.dirSizeTtl ≤ now →
      (m.set_dir_size path size t0).get_dir_size path now = none)
    ∧ (m.set_dir_size path size t0).dirSizes path
      = some (size, t0 + m.dirSizeTtl) := by
  refine ⟨?_, ?_, ?_⟩
  · intro h
    simp [CacheManagerM.get_dir_size, CacheManagerM.set_dir_size, h]
  · intro h
    simp [CacheManagerM.get_dir_size, CacheManagerM.set_dir_size, Nat.not_lt.mpr h]
  · simp [CacheManagerM.set_dir_size]

/-- C8 witness: with ttl 5 and a set at instant 0, a get at instant 3
hits and a get at instant 5 misses, while the entry remains stored. -/
theorem c8_ttl_cache_get_set_witness :
    (CacheManagerM.get_dir_size
      (CacheManagerM.set_dir_size ⟨fun _ => none, 5⟩ "/home/user/.cache" 4096 0)
      "/home/user/.cache" 3 = some 4096)
    ∧ (CacheManagerM.get_dir_size
      (CacheManagerM.set_dir_size ⟨fun _ => none, 5⟩ "/home/user/.cache" 4096 0)
      "/home/user/.cache" 5 = none)
    ∧ (CacheManagerM.set_dir_size ⟨fun _ => none, 5⟩ "/home/user/.cache" 4096 0).dirSizes
      "/home/user/.cache" = some (4096, 0 + 5) :=
  ⟨(c8_ttl_cache_get_set ⟨fun _ => none, 5⟩ "/home/user/.cache" 4096 0 3).1 (by decide),
   (c8_ttl_cache_get_set ⟨fun _ => none, 5⟩ "/home/user/.cache" 4096 0 5).2.1 (by decide),
   (c8_ttl_cache_get_set ⟨fun _ => none, 5⟩ "/home/user/.cache" 4096 0 5).2.2⟩

/-! ### Duplicate Detection Engine (scanner/mod.rs)

Files are modelled as (path, byte content) pairs; the walker's yield is
the input list (capped at 10000 files as in the source). The sampled
fingerprint mirrors compute_file_hash_chunked: the hashed material is
the file size, the first chunk, the middle chunk when the size exceeds
twice the chunk size, and the last chunk when it exceeds one chunk.
DefaultHasher is modelled as an injective encoding of that material, so
fingerprint equality in the model is equality of the hashed material. -/

/-- A regular file seen by the duplicate scan walker. -/
structure FileEnt where
  path : String
  content : List Nat
deriving DecidableEq

/-- The 64 KiB sampling chunk size of compute_file_hash_chunked. -/
def chunkSize : Nat := 64 * 1024

/-- The 10000-file cap of scan_duplicate_files. -/
def maxFilesToScan : Nat := 10000

/-- The 1 KiB minimum-size floor of scan_duplicate_files. -/
def minDupSize : Nat := 1024

/-- Embedding of the material hashed by compute_file_hash_chunked: the
size, the first chunk (min(chunk, size) bytes from offset 0, when the
file is nonempty), the middle chunk (from offset size/2, when
size > 2*chunk), and the last chunk (the final chunk bytes, when
size > chunk). -/
def fingerprint (content : List Nat) :
    Nat × List Nat × Option (List Nat) × Option (List Nat) :=
  let n := content.length
  (n,
   if 0 < n then content.take (min chunkSize n) else [],
   if chunkSize * 2 < n then
     some ((content.drop (n / 2)).take (min chunkSize (n - n / 2)))
   else none,
   if chunkSize < n then
     some ((content.drop (n - chunkSize)).take chunkSize)
   else none)

/-- Fingerprint of a file entry. -/
def fingerprintOf (f : FileEnt) : Nat × List Nat × Option (List Nat) × Option (List Nat) :=
  fingerprint f.content

/-- Pass 1 eligibility: the walker cap and the minimum-size floor
(size > 1KB) of scan_duplicate_files. -/
def eligFiles (files : List FileEnt) : List FileEnt :=
  (files.take maxFilesToScan).filter (fun f => decide (minDupSize < f.content.length))

/-- The size bucket for byte size s (pass 1 grouping by exact size). -/
def sizeBucket (files : List FileEnt) (s : Nat) : List FileEnt :=
  (eligFiles files).filter (fun f => decide (f.content.length = s))

/-- Pass 2 for one size bucket: buckets with a single member are never
hashed; otherwise files are grouped by equal fingerprint and only groups
with more than one member become duplicate groups. -/
def hashGroupsOf (files : List FileEnt) (s : Nat) : List (List FileEnt) :=
  if (sizeBucket files s).length ≤ 1 then []
  else
    (((sizeBucket files s).map fingerprintOf).dedup.map
      (fun fp => (sizeBucket files s).filter (fun f => decide (fingerprintOf f = fp)))).filter
      (fun g => decide (1 < g.length))

/-- Embedding of scan_duplicate_files: the duplicate groups produced
over all size buckets. -/
def dupGroups (files : List FileEnt) : List (List FileEnt) :=
  (((eligFiles files).map (fun f => f.content.length)).dedup.map
    (fun s => hashGroupsOf files s)).flatten

/-- A list containing two distinct elements has length at least two. -/
theorem two_mem_one_lt_length (l : List α) (a b : α)
    (ha : a ∈ l) (hb : b ∈ l) (hne : a ≠ b) : 1 < l.length := by
  cases l with
  | nil => cases ha
  | cons x xs =>
    cases xs with
    | nil =>
      rw [List.mem_singleton] at ha hb
      exact absurd (ha.trans hb.symm) hne
    | cons y ys => simp [List.length_cons]

/-- Every member of a duplicate group carries the group's fingerprint. -/
theorem hashGroups_fingerprint (files : List FileEnt) (s : Nat)
    (g : List FileEnt) (hg : g ∈ hashGroupsOf files s) :
    ∃ fp, ∀ x ∈ g, fingerprintOf x = fp := by
  unfold hashGroupsOf at hg
  by_cases hb : (sizeBucket files s).length ≤ 1
  · rw [if_pos hb] at hg
    cases hg
  · rw [if_neg hb] at hg
    rcases List.mem_filter.mp hg with ⟨hmem, _⟩
    rcases List.mem_map.mp hmem with ⟨fp, _, rfl⟩
    exact ⟨fp, fun x hx => of_decide_eq_true (List.mem_filter.mp hx).2⟩

/-- Fingerprint equality forces equal first bytes for nonempty files. -/
theorem fingerprint_first_byte (a b : Nat) (as bs : List Nat)
    (hfp : fingerprint (a :: as) = fingerprint (b :: bs)) : a = b := by
  unfold fingerprint at hfp
  have hfirst := congrArg (fun t => t.2.1) hfp
  simp only at hfirst
  rw [if_pos (by simp), if_pos (by simp)] at hfirst
  have hpos1 : 0 < min chunkSize (a :: as).length :=
    lt_min (by norm_num [chunkSize]) (by simp)
  have hpos2 : 0 < min chunkSize (b :: bs).length :=
    lt_min (by norm_num [chunkSize]) (by simp)
  obtain ⟨m1, hm1⟩ := Nat.exists_eq_succ_of_ne_zero (Nat.pos_iff_ne_zero.mp hpos1)
  obtain ⟨m2, hm2⟩ := Nat.exists_eq_succ_of_ne_zero (Nat.pos_iff_ne_zero.mp hpos2)
  rw [hm1, hm2, List.take_succ_cons, List.take_succ_cons] at hfirst
  injection hfirst with h1 _

/-- C5: files of equal size above the 1 KiB floor whose sampled windows
agree land in one common DuplicateGroup, and equal-size files differing
in their first byte never share a group. -/
theorem c5_duplicate_grouping :
    (∀ (files : List FileEnt) (A B : FileEnt),
      files.length ≤ maxFilesToScan → A ∈ files → B ∈ files →
      A.path ≠ B.path →
      A.content.length = B.content.length →
      minDupSize < A.content.length →
      fingerprint A.content = fingerprint B.content →
      ∃ g ∈ dupGroups files, A ∈ g ∧ B ∈ g)
    ∧ (∀ (files : List FileEnt) (A B : FileEnt) (a b : Nat) (as bs : List Nat),
      A.content.length = B.content.length →
      A.content = a :: as → B.content = b :: bs → a ≠ b →
      ¬ ∃ g ∈ dupGroups files, A ∈ g ∧ B ∈ g) := by
  constructor
  · intro files A B hlen hA hB hpath hsize h1024 hfp
    have htake : files.take maxFilesToScan = files := List.take_of_length_le hlen
    have hAelig : A ∈ eligFiles files := by
      unfold eligFiles
      rw [htake]
      exact List.mem_filter.mpr ⟨hA, decide_eq_true h1024⟩
    have hBelig : B ∈ eligFiles files := by
      unfold eligFiles
      rw [htake]
      exact List.mem_filter.mpr ⟨hB, decide_eq_true (hsize ▸ h1024)⟩
    have hAbucket : A ∈ sizeBucket files A.content.length :=
      List.mem_filter.mpr ⟨hAelig, decide_eq_true rfl⟩
    have hBbucket : B ∈ sizeBucket files A.content.length :=
      List.mem_filter.mpr ⟨hBelig, decide_eq_true hsize.symm⟩
    have hABne : A ≠ B := fun h => hpath (by rw [h])
    have hblen : 1 < (sizeBucket files A.content.length).length :=
      two_mem_one_lt_length _ A B hAbucket hBbucket hABne
    have hfpmem : fingerprintOf A ∈ ((sizeBucket files A.content.length).map fingerprintOf).dedup :=
      List.mem_dedup.mpr (List.mem_map.mpr ⟨A, hAbucket, rfl⟩)
    have hAg : A ∈ (sizeBucket files A.content.length).filter
        (fun f => decide (fingerprintOf f = fingerprintOf A)) :=
      List.mem_filter.mpr ⟨hAbucket, decide_eq_true rfl⟩
    have hBg : B ∈ (sizeBucket files A.content.length).filter
        (fun f => decide (fingerprintOf f = fingerprintOf A)) :=
      List.mem_filter.mpr ⟨hBbucket, decide_eq_true (show fingerprintOf B = fingerprintOf A from hfp.symm)⟩
    have hg1 : 1 < ((sizeBucket files A.content.length).filter
        (fun f => decide (fingerprintOf f = fingerprintOf A))).length :=
      two_mem_one_lt_length _ A B hAg hBg hABne
    have hgin : (sizeBucket files A.content.length).filter
        (fun f => decide (fingerprintOf f = fingerprintOf A))
        ∈ hashGroupsOf files A.content.length := by
      unfold hashGroupsOf
      rw [if_neg (by omega)]
      exact List.mem_filter.mpr
        ⟨List.mem_map.mpr ⟨fingerprintOf A, hfpmem, rfl⟩, decide_eq_true hg1⟩
    have hsmem : A.content.length ∈ ((eligFiles files).map (fun f => f.content.length)).dedup :=
      List.mem_dedup.mpr (List.mem_map.mpr ⟨A, hAelig, rfl⟩)
    refine ⟨_, ?_, hAg, hBg⟩
    unfold dupGroups
    exact List.mem_flatten.mpr
      ⟨hashGroupsOf files A.content.length,
       List.mem_map.mpr ⟨A.content.length, hsmem, rfl⟩, hgin⟩
  · intro files A B a b as bs _hsize hAc hBc hab
    rintro ⟨g, hgmem, hAg, hBg⟩
    unfold dupGroups at hgmem
    rcases List.mem_flatten.mp hgmem with ⟨inner, hinner, hgin⟩
    rcases List.mem_map.mp hinner with ⟨s, _, rfl⟩
    obtain ⟨fp, hfp⟩ := hashGroups_fingerprint files s g hgin
    have heq : fingerprintOf A = fingerprintOf B := (hfp A hAg).trans (hfp B hBg).symm
    unfold fingerprintOf at heq
    rw [hAc, hBc] at heq
    exact hab (fingerprint_first_byte a b as bs heq)

/-- C5 witness: two equal-content 1025-byte files share a group, and two
1025-byte files differing in their first byte never do. -/
theorem c5_duplicate_grouping_witness :
    (∃ g ∈ dupGroups
        [⟨"/home/user/a", List.replicate 1025 7⟩, ⟨"/home/user/b", List.replicate 1025 7⟩],
      (⟨"/home/user/a", List.replicate 1025 7⟩ : FileEnt) ∈ g ∧
      (⟨"/home/user/b", List.replicate 1025 7⟩ : FileEnt) ∈ g)
    ∧ ¬ ∃ g ∈ dupGroups
        [⟨"/home/user/c", 5 :: List.replicate 1024 0⟩, ⟨"/home/user/d", 6 :: List.replicate 1024 0⟩],
      (⟨"/home/user/c", 5 :: List.replicate 1024 0⟩ : FileEnt) ∈ g ∧
      (⟨"/home/user/d", 6 :: List.replicate 1024 0⟩ : FileEnt) ∈ g :=
  ⟨c5_duplicate_grouping.1 _ _ _
      (by decide)
      (List.mem_cons_self _ _)
      (List.mem_cons_of_mem _ (List.mem_cons_self _ _))
      (by decide)
      rfl
      (by rw [show (FileEnt.mk "/home/user/a" (List.replicate 1025 7)).content = List.replicate 1025 7 from rfl, List.length_replicate]; decide)
      rfl,
   c5_duplicate_grouping.2 _
      ⟨"/home/user/c", 5 :: List.replicate 1024 0⟩
      ⟨"/home/user/d", 6 :: List.replicate 1024 0⟩
      5 6 (List.replicate 1024 0) (List.replicate 1024 0)
      rfl rfl rfl (by decide)⟩

/-! ### Scan Orchestrator (scanner/mod.rs)

scan_system_async is modelled over an abstract environment supplying
what each phase's directory probes and walkers would yield. The cache
and package phases derive their items from fixed candidate directories
and ignore max_files; the log and large-file phases apply take(max_files)
to their walker streams before filtering, as in the source. Clock and
progress emission are outside the model; the model sub-scans are total,
so the error paths (missing home directory, timeouts, memory ceiling)
do not arise and failed_categories stays empty here. The failure
propagation of the storage-recovery entry point is modelled separately
by scan_storage_recovery, parameterized over its sub-scan outcomes. -/

/-- A produced scan item: path, size and flattened child entries
(child path and size); the remaining display fields do not affect the
claims. -/
structure ScanItemM where
  path : String
  size : Nat
  category : String
  children : List (String × Nat)
deriving DecidableEq

/-- The scan limits derived from the options (defaults 50000 files and
depth 10 as in the source). -/
structure ScanLimitsM where
  max_files : Nat
  max_depth : Nat
deriving DecidableEq

/-- Embedding of ScanOptions. -/
structure ScanOptionsM where
  include_caches : Bool
  include_packages : Bool
  include_large_files : Bool
  include_logs : Bool
  max_files : Option Nat
  max_depth : Option Nat
deriving DecidableEq

/-- Environment: what the filesystem probes of each phase yield. Cache,
browser-cache and package-cache candidate directories that exist are
listed with their recursive sizes; cacheSubdirs gives the immediate
subdirectories (with sizes) of a cache directory; logWalk and each entry
of largeWalks are the file streams the walkers yield, in walk order. -/
structure ScanEnv where
  cacheDirs : List (String × Nat)
  cacheSubdirs : String → List (String × Nat)
  browserCaches : List (String × Nat)
  pkgCaches : List (String × Nat)
  logWalk : List (String × Nat)
  largeWalks : List (List (String × Nat))

/-- Insertion into a size-descending list (models sort_by size desc). -/
def insertBySizeDesc (x : String × Nat) : List (String × Nat) → List (String × Nat)
  | [] => [x]
  | y :: ys => if y.2 ≤ x.2 then x :: y :: ys else y :: insertBySizeDesc x ys

/-- Size-descending insertion sort over (path, size) pairs. -/
def sortBySizeDesc : List (String × Nat) → List (String × Nat)
  | [] => []
  | x :: xs => insertBySizeDesc x (sortBySizeDesc xs)

/-- Insertion into a size-descending item list. -/
def insertItemBySizeDesc (x : ScanItemM) : List ScanItemM → List ScanItemM
  | [] => [x]
  | y :: ys => if y.size ≤ x.size then x :: y :: ys else y :: insertItemBySizeDesc x ys

/-- Size-descending insertion sort over scan items. -/
def sortItemsBySizeDesc : List ScanItemM → List ScanItemM
  | [] => []
  | x :: xs => insertItemBySizeDesc x (sortItemsBySizeDesc xs)

/-- Embedding of scan_cache_subdirs_async: subdirectories above 5 MiB,
sorted by size descending, top 10. -/
def scan_cache_subdirs (env : ScanEnv) (p : String) : List (String × Nat) :=
  (sortBySizeDesc ((env.cacheSubdirs p).filter
    (fun c => decide (5 * 1024 * 1024 < c.2)))).take 10

/-- Embedding of scan_caches_async: nonempty fixed cache directories
(with children from the subdirectory scan) plus browser caches above
10 MiB. The limits argument is accepted and ignored, as in the source
(only max_depth is forwarded to the subdirectory walk, which the
flattened children model absorbs). -/
def scan_caches (env : ScanEnv) (_limits : ScanLimitsM) : List ScanItemM :=
  (env.cacheDirs.filter (fun d => decide (0 < d.2))).map
    (fun d => { path := d.1, size := d.2, category := "Cache",
                children := scan_cache_subdirs env d.1 })
  ++ (env.browserCaches.filter (fun d => decide (10 * 1024 * 1024 < d.2))).map
    (fun d => { path := d.1, size := d.2, category := "Browser", children := [] })

/-- Embedding of scan_package_caches_async: nonempty fixed package-cache
directories; takes no limits at all, as in the source. -/
def scan_package_caches (env : ScanEnv) : List ScanItemM :=
  (env.pkgCaches.filter (fun d => decide (0 < d.2))).map
    (fun d => { path := d.1, size := d.2, category := "Package Manager",
                children := [] })

/-- Model of Rust str::ends_with over strings. -/
def strEndsWith (hay needle : String) : Bool :=
  startsWithL needle.data.reverse hay.data.reverse

/-- Name filter of the log scan. -/
def isLogName (name : String) : Bool :=
  strEndsWith name ".log" || strEndsWith name ".log.1" || strContains name ".log."

/-- Embedding of scan_logs_async: the walker stream truncated at
max_files, keeping log-named files above 10 MiB. -/
def scan_logs (env : ScanEnv) (limits : ScanLimitsM) : List ScanItemM :=
  ((env.logWalk.take limits.max_files).filter
    (fun f => isLogName f.1 && decide (10 * 1024 * 1024 < f.2))).map
    (fun f => { path := f.1, size := f.2, category := "Logs", children := [] })

/-- Embedding of scan_large_files_async: per scanned directory the
walker stream is truncated at max_files and filtered above 100 MiB;
results are merged, sorted by size descending and truncated to 20. -/
def scan_large_files (env : ScanEnv) (limits : ScanLimitsM) : List ScanItemM :=
  (sortItemsBySizeDesc
    ((env.largeWalks.map (fun w =>
      ((w.take limits.max_files).filter (fun f => decide (100 * 1024 * 1024 < f.2))).map
        (fun f => ({ path := f.1, size := f.2, category := "Large Files",
                     children := [] } : ScanItemM)))).flatten)).take 20

/-- Embedding of the ScanResults accumulator (clock fields omitted). -/
structure ScanResultsM where
  items : List ScanItemM
  total_size : Nat
  total_items : Nat
  failed_categories : List (String × String)
deriving DecidableEq

/-- Total size of a phase's items. -/
def phaseSize (l : List ScanItemM) : Nat :=
  (l.map (fun i => i.size)).sum

/-- Item count of the cache phase: one per item plus its children, as
accumulated by scan_system_async. -/
def phaseCountWithChildren (l : List ScanItemM) : Nat :=
  l.length + (l.map (fun i => i.children.length)).sum

/-- Embedding of scan_system_async over the environment model: the four
phases run in source order when enabled, accumulating items and totals.
The sub-scans are total here, so no failed category arises. -/
def scan_system (opts : ScanOptionsM) (env : ScanEnv) : ScanResultsM :=
  let limits : ScanLimitsM :=
    { max_files := opts.max_files.getD 50000,
      max_depth := opts.max_depth.getD 10 }
  let cacheItems := if opts.include_caches then scan_caches env limits else []
  let pkgItems := if opts.include_packages then scan_package_caches env else []
  let logItems := if opts.include_logs then scan_logs env limits else []
  let largeItems := if opts.include_large_files then scan_large_files env limits else []
  { items := cacheItems ++ pkgItems ++ logItems ++ largeItems,
    total_size := phaseSize cacheItems + phaseSize pkgItems
                  + phaseSize logItems + phaseSize largeItems,
    total_items := phaseCountWithChildren cacheItems + pkgItems.length
                   + logItems.length + largeItems.length,
    failed_categories := [] }

/-- Flattening a map to empty lists yields the empty list. -/
theorem flatten_map_nil (l : List α) :
    (l.map (fun _ => ([] : List β))).flatten = [] := by
  induction l with
  | nil => rfl
  | cons x xs ih => simp [ih]

/-- C7 counterexample: with max_files = 0 and every phase enabled, an
environment whose user cache directory exists with 4096 bytes still
yields one item and a nonzero total, because the cache phase ignores
max_files; the result is not empty. -/
theorem c7_max_files_zero_counterexample :
    (scan_system
      { include_caches := true, include_packages := true,
        include_large_files := true, include_logs := true,
        max_files := some 0, max_depth := none }
      { cacheDirs := [("/home/user/.cache", 4096)],
        cacheSubdirs := fun _ => [], browserCaches := [],
        pkgCaches := [], logWalk := [], largeWalks := [] }).total_items = 1
    ∧ (scan_system
      { include_caches := true, include_packages := true,
        include_large_files := true, include_logs := true,
        max_files := some 0, max_depth := none }
      { cacheDirs := [("/home/user/.cache", 4096)],
        cacheSubdirs := fun _ => [], browserCaches := [],
        pkgCaches := [], logWalk := [], largeWalks := [] }).total_size = 4096 :=
  ⟨rfl, rfl⟩

/-- C7 amended: the phases that honor max_files (logs and large files)
yield nothing under max_files = 0, so with the cache and package phases
disabled the scan returns an empty result with no failed categories, in
every environment; with those phases enabled the result need not be
empty, as they ignore max_files. -/
theorem c7_max_files_zero_amended (env : ScanEnv) :
    scan_system
      { include_caches := false, include_packages := false,
        include_large_files := true, include_logs := true,
        max_files := some 0, max_depth := none } env
    = { items := [], total_size := 0, total_items := 0,
        failed_categories := [] } := by
  unfold scan_system scan_logs scan_large_files
  simp [phaseSize, phaseCountWithChildren, sortItemsBySizeDesc, flatten_map_nil]

/-- C7 amended witness: the empty-result conclusion at a concrete
environment that would have items to offer. -/
theorem c7_max_files_zero_amended_witness :
    scan_system
      { include_caches := false, include_packages := false,
        include_large_files := true, include_logs := true,
        max_files := some 0, max_depth := none }
      { cacheDirs := [("/home/user/.cache", 4096)],
        cacheSubdirs := fun _ => [], browserCaches := [],
        pkgCaches := [],
        logWalk := [("/home/user/.local/share/app.log", 20 * 1024 * 1024)],
        largeWalks := [[("/home/user/Downloads/big.iso", 200 * 1024 * 1024)]] }
    = { items := [], total_size := 0, total_items := 0,
        failed_categories := [] } :=
  c7_max_files_zero_amended _

/-! ### Storage-recovery entry point (scanner/mod.rs)

scan_storage_recovery runs the duplicate, large-file and old-download
scans; in the source each result is unwrapped with the ? operator after
.context(...), so the first failing scan aborts the whole run. The model
is parameterized over the three sub-scan outcomes. -/

/-- Embedding of StorageRecoveryResults (duplicate groups as lists of
files, sizes aggregated). -/
structure StorageRecoveryResultsM where
  duplicates : List (List FileEnt)
  large_files : List ScanItemM
  old_downloads : List ScanItemM
  total_duplicate_size : Nat
  total_large_files_size : Nat
  total_old_downloads_size : Nat
  total_recoverable_size : Nat
deriving DecidableEq

/-- Embedding of scan_storage_recovery: each sub-scan result is
unwrapped in order with its context message; an error short-circuits the
whole function (the ? operator), so no partial results or failure list
are produced. -/
def scan_storage_recovery
    (dupResult : Except String (List (List FileEnt)))
    (largeResult : Except String (List ScanItemM))
    (oldResult : Except String (List ScanItemM)) :
    Except String StorageRecoveryResultsM :=
  match dupResult with
  | .error e => .error ("Failed to scan for duplicate files: " ++ e)
  | .ok dups =>
    match largeResult with
    | .error e => .error ("Failed to scan for large files: " ++ e)
    | .ok large =>
      match oldResult with
      | .error e => .error ("Failed to scan for old downloads: " ++ e)
      | .ok old =>
        let dupSize := (dups.map (fun g => (g.map (fun f => f.content.length)).sum)).sum
        .ok { duplicates := dups, large_files := large, old_downloads := old,
              total_duplicate_size := dupSize,
              total_large_files_size := phaseSize large,
              total_old_downloads_size := phaseSize old,
              total_recoverable_size := dupSize + phaseSize large + phaseSize old }

/-- C6: a failing duplicate scan aborts the storage-recovery run as a
whole, even though the remaining scans would succeed: the entry point
returns an error and no partial result set or failure list, contrary to
the claim (and to the function's own doc comment about partial
success). -/
theorem c6_storage_recovery_aborts_on_phase_failure :
    scan_storage_recovery (.error "Cannot determine home directory")
      (.ok []) (.ok [])
    = .error "Failed to scan for duplicate files: Cannot determine home directory" :=
  rfl
